import Mathlib

/-!
Verification development for the backtest plot-generation module
(`maturagraph.py`) of the gold-ml-trading-system repository.

The module loads a `backtest_results.json` artifact, builds a pandas
DataFrame from its `trades` array, sorts it by `exit_time`, derives a
no-spread PnL/capital series and a buy-and-hold benchmark series, and
renders up to five charts.

Shallow embedding conventions:
  - a missing JSON key, and the NaN/NaT cell pandas produces for it, are
    both modelled as `none`; numeric cells are rationals;
  - timestamps are modelled as already-coerced comparable integers
    (`pd.to_datetime(..., errors="coerce")` yields a comparable value or
    NaT, which is `none` here);
  - a DataFrame is a record of column-presence flags plus the row list
    (`pd.DataFrame(trades)` creates a column iff at least one record
    carries the key);
  - chart rendering is abstracted to the list of chart kinds whose guard
    fires, in program order; console warnings are counted.
-/

namespace Maturagraph

/-- One element of the `trades` array of the results artifact. A field is
`some v` when the record carries the key with a usable value and `none`
when the key is absent (pandas then fills NaN/NaT for that cell). -/
structure TradeRecord where
  entry_time : Option Int
  exit_time : Option Int
  mid_price_entry : Option ℚ
  mid_price_exit : Option ℚ
  position_size : Option ℚ
  direction : Option String
  slippage_entry : Option ℚ
  slippage_exit : Option ℚ
  capital_after_exit : Option ℚ
  net_pnl : Option ℚ
deriving DecidableEq

/-- The DataFrame built on line 48 by `pd.DataFrame(trades)`: ten
column-presence flags plus the rows. A column exists iff some input
record carries the corresponding key. -/
structure Frame where
  hasEntryTime : Bool
  hasExitTime : Bool
  hasMidPriceEntry : Bool
  hasMidPriceExit : Bool
  hasPositionSize : Bool
  hasDirection : Bool
  hasSlippageEntry : Bool
  hasSlippageExit : Bool
  hasCapitalAfterExit : Bool
  hasNetPnl : Bool
  rows : List TradeRecord
deriving DecidableEq

/-- DataFrame construction from the raw trades list (line 48). -/
def mkFrame (trades : List TradeRecord) : Frame where
  hasEntryTime := trades.any fun r => r.entry_time.isSome
  hasExitTime := trades.any fun r => r.exit_time.isSome
  hasMidPriceEntry := trades.any fun r => r.mid_price_entry.isSome
  hasMidPriceExit := trades.any fun r => r.mid_price_exit.isSome
  hasPositionSize := trades.any fun r => r.position_size.isSome
  hasDirection := trades.any fun r => r.direction.isSome
  hasSlippageEntry := trades.any fun r => r.slippage_entry.isSome
  hasSlippageExit := trades.any fun r => r.slippage_exit.isSome
  hasCapitalAfterExit := trades.any fun r => r.capital_after_exit.isSome
  hasNetPnl := trades.any fun r => r.net_pnl.isSome
  rows := trades

/-- Key comparison used by the `exit_time` sort of line 57: defined
timestamps ascend, missing timestamps (NaT) are placed after every defined
one (the `na_position="last"` default of `sort_values`). -/
def exitLE (a b : TradeRecord) : Bool :=
  match a.exit_time, b.exit_time with
  | some x, some y => decide (x ≤ y)
  | some _, none => true
  | none, some _ => false
  | none, none => true

/-- Insertion of a record into an already ordered list, keeping it before
the first element it compares less-or-equal to. -/
def insertTrade (r : TradeRecord) : List TradeRecord → List TradeRecord
  | [] => [r]
  | x :: xs => if exitLE r x then r :: x :: xs else x :: insertTrade r xs

/-- Line 57, `df.sort_values("exit_time").reset_index(drop=True)`, modelled
as an insertion sort over `exitLE`. The library call guarantees the key
order and the NaT-last placement, which this model shares; the tie order of
the library default (quicksort) is unspecified, and no theorem below
depends on the tie order. -/
def sortTrades : List TradeRecord → List TradeRecord
  | [] => []
  | r :: rest => insertTrade r (sortTrades rest)

/-- Lines 56-57: the sort only happens when the `exit_time` column exists. -/
def sortedRows (f : Frame) : List TradeRecord :=
  if f.hasExitTime then sortTrades f.rows else f.rows

/-- Line 69: `df["direction"].map({"LONG": 1.0, "SHORT": -1.0}).fillna(0.0)`.
Any value other than the two dictionary keys maps to NaN and the `fillna`
turns it into 0. -/
def dirSign (d : Option String) : ℚ :=
  match d with
  | some s => if s = "LONG" then 1 else if s = "SHORT" then -1 else 0
  | none => 0

/-- Lines 70-77: per-record no-spread PnL. Slippage cells fall back to 0
(`fillna(0.0)` on lines 70-71); a NaN mid price or position size makes the
whole product NaN, hence `none`. -/
def pnlNoSpread (r : TradeRecord) : Option ℚ :=
  match r.mid_price_entry, r.mid_price_exit, r.position_size with
  | some me, some mx, some sz =>
      let s := dirSign r.direction
      let entryNS := me + s * r.slippage_entry.getD 0
      let exitNS := mx - s * r.slippage_exit.getD 0
      some ((exitNS - entryNS) * s * sz)
  | _, _, _ => none

/-- The `pnl_no_spread` column of line 77 over a row list. -/
def pnlList (rows : List TradeRecord) : List (Option ℚ) :=
  rows.map pnlNoSpread

/-- Running sum in the sense of `Series.cumsum()` with its default
`skipna=True`: a NaN cell stays NaN in the output while the running total
continues past it. -/
def cumsumOpt (acc : ℚ) : List (Option ℚ) → List (Option ℚ)
  | [] => []
  | none :: xs => none :: cumsumOpt acc xs
  | some x :: xs => some (acc + x) :: cumsumOpt (acc + x) xs

/-- Line 78: `config.INITIAL_CAPITAL + df["pnl_no_spread"].cumsum()`, with
the initial capital constant passed as a parameter. -/
def capitalNoSpread (init : ℚ) (rows : List TradeRecord) : List (Option ℚ) :=
  (cumsumOpt 0 (pnlList rows)).map (Option.map fun c => init + c)

/-- Lines 60-68: the six columns whose joint presence in the frame enables
the no-spread series (`no_spread_cols.issubset(df.columns)`). -/
def noSpreadGate (f : Frame) : Bool :=
  f.hasMidPriceEntry && f.hasMidPriceExit && f.hasPositionSize &&
    f.hasDirection && f.hasSlippageEntry && f.hasSlippageExit

/-- Lines 68-78: the pair of derived columns (`pnl_no_spread`,
`capital_no_spread`) when the gate fires, nothing otherwise. -/
def noSpreadSeries (init : ℚ) (f : Frame) :
    Option (List (Option ℚ) × List (Option ℚ)) :=
  if noSpreadGate f then
    some (pnlList (sortedRows f), capitalNoSpread init (sortedRows f))
  else none

/-- Line 121: `df["mid_price_exit"].iloc[0]`, the reference price taken
from the first record of the sorted frame. -/
def basePrice (rows : List TradeRecord) : Option ℚ :=
  rows.head?.bind fun r => r.mid_price_exit

/-- Line 123: `config.INITIAL_CAPITAL * (df["mid_price_exit"] / base_price)`;
a NaN exit price yields a NaN cell. -/
def buyHoldList (init b : ℚ) (rows : List TradeRecord) : List (Option ℚ) :=
  rows.map fun r => r.mid_price_exit.map fun p => init * (p / b)

/-- Line 84: the equity-curve guard, `exit_time` and `capital_after_exit`
columns both present. -/
def equityGate (f : Frame) : Bool :=
  f.hasExitTime && f.hasCapitalAfterExit

/-- Lines 115-119: the column guard of the strategy-vs-buy-and-hold block. -/
def benchGate (f : Frame) : Bool :=
  f.hasExitTime && f.hasCapitalAfterExit && f.hasMidPriceExit

/-- Lines 115-123: the buy-and-hold series is computed only when the column
guard fires and the reference price is defined and non-zero
(`pd.notna(base_price) and base_price != 0`, line 122). -/
def benchmarkSeries (init : ℚ) (f : Frame) : Option (List (Option ℚ)) :=
  if benchGate f then
    match basePrice (sortedRows f) with
    | some b => if b = 0 then none else some (buyHoldList init b (sortedRows f))
    | none => none
  else none

/-- The five chart kinds the module can emit. -/
inductive Chart where
  | equityCurve
  | equityVsBuyHold
  | pnlPerTrade
  | pnlOverTime
  | pnlDistribution
deriving DecidableEq

/-- Lines 115-137: the strategy-vs-buy-and-hold chart is saved exactly when
the benchmark series exists. -/
def benchCharts (f : Frame) : List Chart :=
  if benchGate f then
    match basePrice (sortedRows f) with
    | some b => if b = 0 then [] else [Chart.equityVsBuyHold]
    | none => []
  else []

/-- Lines 83-188: the charts saved by one invocation, in program order,
each behind its own column guard. -/
def chartsOf (f : Frame) : List Chart :=
  (if equityGate f then [Chart.equityCurve] else []) ++
    benchCharts f ++
    (if f.hasNetPnl then [Chart.pnlPerTrade] else []) ++
    (if f.hasExitTime && f.hasNetPnl then [Chart.pnlOverTime] else []) ++
    (if f.hasNetPnl then [Chart.pnlDistribution] else [])

/-- Line 142: `"green" if x > 0 else "red"`, applied to a `net_pnl` cell;
the comparison `NaN > 0` is false in pandas, so a NaN cell is red. -/
def barColor (x : Option ℚ) : String :=
  match x with
  | some v => if v > 0 then "green" else "red"
  | none => "red"

/-- Input of one invocation: whether the results file exists, and the
`trades` array parsed from it when it does. -/
structure RunInput where
  fileExists : Bool
  trades : List TradeRecord
deriving DecidableEq

/-- Observable outcome of one invocation: the number of `[WARN]` lines
printed, the derived series attached to the frame, and the charts saved. -/
structure RunOutput where
  warnings : Nat
  noSpread : Option (List (Option ℚ) × List (Option ℚ))
  benchmark : Option (List (Option ℚ))
  charts : List Chart
deriving DecidableEq

/-- Control flow of `generate_backtest_plots` (lines 36-188): a missing
file (line 36) or an empty `trades` array (line 44) prints one warning and
returns before any derivation; otherwise the frame is built, sorted, the
derived series computed and the guarded charts emitted. The function is
total: the modelled run always returns normally. -/
def run (init : ℚ) (inp : RunInput) : RunOutput :=
  if !inp.fileExists then ⟨1, none, none, []⟩
  else if inp.trades.isEmpty then ⟨1, none, none, []⟩
  else
    ⟨0, noSpreadSeries init (mkFrame inp.trades),
      benchmarkSeries init (mkFrame inp.trades), chartsOf (mkFrame inp.trades)⟩

/-- Direction sign exactly as the specification words it: +1 for LONG, -1
for SHORT, 0 otherwise. -/
def signSpec (d : Option String) : ℚ :=
  if d = some "LONG" then 1 else if d = some "SHORT" then -1 else 0

/-- The dictionary-map-plus-fillna of line 69 computes the sign of the
specification. -/
theorem dirSign_eq_signSpec (d : Option String) : dirSign d = signSpec d := by
  match d with
  | none => simp [dirSign, signSpec]
  | some s => by_cases h1 : s = "LONG" <;> by_cases h2 : s = "SHORT" <;>
      simp [dirSign, signSpec, h1, h2]

/-- The LONG worked example of the specification: zero slippage, entry 100,
exit 110, size 2. -/
def longExample : TradeRecord :=
  ⟨none, none, some 100, some 110, some 2, some "LONG", some 0, some 0, none, none⟩

/-- The SHORT worked example of the specification: zero slippage, entry
100, exit 90, size 1. -/
def shortExample : TradeRecord :=
  ⟨none, none, some 100, some 90, some 1, some "SHORT", some 0, some 0, none, none⟩

/-- C1: on every record with defined mid prices and position size, the
derived no-spread PnL equals
`((mid_price_exit - sign * slippage_exit) - (mid_price_entry + sign * slippage_entry)) * sign * position_size`
with sign +1 for LONG, -1 for SHORT, 0 otherwise, and missing slippage
treated as 0; moreover the two worked examples of the specification hold:
the LONG trade yields PnL 20 and the SHORT trade yields PnL 10. -/
theorem c1_no_spread_pnl_formula :
    (∀ (r : TradeRecord) (me mx sz : ℚ),
        r.mid_price_entry = some me → r.mid_price_exit = some mx →
        r.position_size = some sz →
        pnlNoSpread r =
          some (((mx - signSpec r.direction * r.slippage_exit.getD 0) -
              (me + signSpec r.direction * r.slippage_entry.getD 0)) *
            signSpec r.direction * sz)) ∧
      pnlNoSpread longExample = some 20 ∧ pnlNoSpread shortExample = some 10 := by
  refine ⟨fun r me mx sz hme hmx hsz => ?_, ?_, ?_⟩
  · simp [pnlNoSpread, hme, hmx, hsz, dirSign_eq_signSpec]
  · norm_num [pnlNoSpread, dirSign, longExample]
  · have hd : dirSign (some "SHORT") = -1 := by decide
    norm_num [pnlNoSpread, shortExample, hd]

/-- Witness for C1 at the LONG worked example. -/
theorem c1_witness :
    longExample.mid_price_entry = some 100 ∧
      pnlNoSpread longExample =
        some (((110 - signSpec longExample.direction * longExample.slippage_exit.getD 0) -
            (100 + signSpec longExample.direction * longExample.slippage_entry.getD 0)) *
          signSpec longExample.direction * 2) :=
  ⟨rfl, c1_no_spread_pnl_formula.1 longExample 100 110 2 rfl rfl rfl⟩

/-- Auxiliary: the running-sum cell at a defined-prefix index equals the
accumulator plus the sum of the prefix values. -/
theorem cumsumOpt_getElem (xs : List (Option ℚ)) (acc : ℚ) (i : Nat)
    (hi : i < xs.length)
    (hdef : ∀ x ∈ xs.take (i + 1), x ≠ none) :
    (cumsumOpt acc xs)[i]? =
      some (some (acc + ((xs.take (i + 1)).map (fun o => o.getD 0)).sum)) := by
  induction xs generalizing acc i with
  | nil => simp at hi
  | cons x xs ih =>
      have hx : x ≠ none := hdef x (by simp)
      obtain ⟨v, rfl⟩ := Option.ne_none_iff_exists.mp hx
      cases i with
      | zero => simp [cumsumOpt]
      | succ i =>
          have hi2 : i < xs.length := by simpa using hi
          have hdef2 : ∀ y ∈ xs.take (i + 1), y ≠ none := fun y hy =>
            hdef y (by simp [List.take_succ_cons]; exact Or.inr hy)
          simp only [cumsumOpt, List.getElem?_cons_succ, List.take_succ_cons,
            List.map_cons, List.sum_cons, ih (acc + v) i hi2 hdef2]
          congr 2
          simp only [Option.getD_some]
          ring

/-- C2: whenever the no-spread series is computed at all, each cell of the
capital series with a defined PnL prefix equals the initial capital plus
the running sum of the per-trade no-spread PnL in sorted order. -/
theorem c2_capital_no_spread_cumsum (init : ℚ) (f : Frame)
    (pnl cap : List (Option ℚ)) (i : Nat)
    (hser : noSpreadSeries init f = some (pnl, cap))
    (hi : i < (sortedRows f).length)
    (hdef : ∀ r ∈ (sortedRows f).take (i + 1), pnlNoSpread r ≠ none) :
    cap[i]? =
      some (some (init +
        (((sortedRows f).take (i + 1)).map fun r => (pnlNoSpread r).getD 0).sum)) := by
  have hg : noSpreadGate f = true := by
    cases hgf : noSpreadGate f
    · simp [noSpreadSeries, hgf] at hser
    · rfl
  simp only [noSpreadSeries, hg, if_true, Option.some_inj, Prod.ext_iff] at hser
  obtain ⟨hp, hc⟩ := hser
  have hlen : i < (pnlList (sortedRows f)).length := by simpa [pnlList] using hi
  have hdef2 : ∀ x ∈ (pnlList (sortedRows f)).take (i + 1), x ≠ none := by
    intro x hx
    rw [pnlList, ← List.map_take] at hx
    obtain ⟨r, hr, rfl⟩ := List.mem_map.mp hx
    exact hdef r hr
  rw [← hc]
  unfold capitalNoSpread
  rw [List.getElem?_map, cumsumOpt_getElem _ _ _ hlen hdef2]
  simp [pnlList, ← List.map_take, List.map_map, Function.comp_def]

def c2row1 : TradeRecord :=
  ⟨none, some 1, some 100, some 110, some 2, some "LONG", some 0, some 0, none, none⟩

def c2row2 : TradeRecord :=
  ⟨none, some 2, some 100, some 90, some 1, some "SHORT", some 0, some 0, none, none⟩

def c2frame : Frame := mkFrame [c2row1, c2row2]

/-- Witness for C2 on a concrete two-trade frame at index 1. -/
theorem c2_witness :
    1 < (sortedRows c2frame).length ∧
      (capitalNoSpread 1000 (sortedRows c2frame))[1]? =
        some (some (1000 +
          (((sortedRows c2frame).take 2).map fun r => (pnlNoSpread r).getD 0).sum)) :=
  ⟨by decide,
    c2_capital_no_spread_cumsum 1000 c2frame (pnlList (sortedRows c2frame))
      (capitalNoSpread 1000 (sortedRows c2frame)) 1 rfl (by decide) (by decide)⟩

/-- C4: a missing results file, or an artifact whose `trades` list is
empty, makes the run return early with exactly one warning, no derived
series and no chart artifacts; the modelled run returns normally, raising
nothing. -/
theorem c4_soft_fail (init : ℚ) (inp : RunInput)
    (h : inp.fileExists = false ∨ inp.trades = []) :
    run init inp = ⟨1, none, none, []⟩ := by
  rcases h with h | h
  · simp [run, h]
  · cases hf : inp.fileExists <;> simp [run, h, hf]

/-- Witness for C4 on an existing artifact with an empty trades list. -/
theorem c4_witness : run 0 ⟨true, []⟩ = ⟨1, none, none, []⟩ :=
  c4_soft_fail 0 ⟨true, []⟩ (Or.inr rfl)

/-- Auxiliary: the running sum is unchanged across a cell holding PnL 0
whose predecessor cell is defined. -/
theorem cumsumOpt_step_zero (i : Nat) (xs : List (Option ℚ)) (acc v : ℚ)
    (h1 : xs[i + 1]? = some (some 0)) (h0 : xs[i]? = some (some v)) :
    (cumsumOpt acc xs)[i + 1]? = (cumsumOpt acc xs)[i]? := by
  induction i generalizing xs acc with
  | zero =>
      cases xs with
      | nil => simp at h0
      | cons x rest =>
          cases rest with
          | nil => simp at h1
          | cons y rest2 =>
              simp only [List.getElem?_cons_succ, List.getElem?_cons_zero,
                Option.some_inj] at h1 h0
              subst h1
              subst h0
              simp [cumsumOpt]
  | succ i ih =>
      cases xs with
      | nil => simp at h1
      | cons x rest =>
          simp only [List.getElem?_cons_succ] at h1 h0
          cases x with
          | none =>
              simpa [cumsumOpt] using ih rest acc h1 h0
          | some w =>
              simpa [cumsumOpt] using ih rest (acc + w) h1 h0

/-- C10: a record whose direction is neither LONG nor SHORT has direction
sign 0, hence no-spread PnL exactly 0 whatever its defined prices, slippage
and position size, and it leaves the cumulative no-spread capital unchanged
from the preceding record whenever that preceding cell is defined. -/
theorem c10_neutral_direction (r : TradeRecord) (me mx sz : ℚ)
    (hd1 : r.direction ≠ some "LONG") (hd2 : r.direction ≠ some "SHORT")
    (hme : r.mid_price_entry = some me) (hmx : r.mid_price_exit = some mx)
    (hsz : r.position_size = some sz) :
    pnlNoSpread r = some 0 ∧
      ∀ (init : ℚ) (rows : List TradeRecord) (i : Nat) (v : ℚ),
        rows[i + 1]? = some r →
        (pnlList rows)[i]? = some (some v) →
        (capitalNoSpread init rows)[i + 1]? = (capitalNoSpread init rows)[i]? := by
  have hsign : dirSign r.direction = 0 := by
    match hd : r.direction with
    | none => simp [dirSign]
    | some s =>
        rw [hd] at hd1 hd2
        simp only [ne_eq, Option.some.injEq] at hd1 hd2
        simp [dirSign, hd1, hd2]
  have hpnl : pnlNoSpread r = some 0 := by
    simp [pnlNoSpread, hme, hmx, hsz, hsign]
  refine ⟨hpnl, fun init rows i v hr hv => ?_⟩
  have h1 : (pnlList rows)[i + 1]? = some (some 0) := by
    simp [pnlList, List.getElem?_map, hr, hpnl]
  unfold capitalNoSpread
  rw [List.getElem?_map, List.getElem?_map,
    cumsumOpt_step_zero i (pnlList rows) 0 v h1 hv]

def c10rowLong : TradeRecord :=
  ⟨none, some 1, some 100, some 110, some 2, some "LONG", some 0, some 0, none, none⟩

def c10rowFlat : TradeRecord :=
  ⟨none, some 2, some 7, some 9, some 3, some "FLAT", some 1, some 1, none, none⟩

/-- Witness for C10 on a concrete list whose second record has the
unrecognized direction FLAT. -/
theorem c10_witness :
    pnlNoSpread c10rowFlat = some 0 ∧
      (capitalNoSpread 1000 [c10rowLong, c10rowFlat])[1]? =
        (capitalNoSpread 1000 [c10rowLong, c10rowFlat])[0]? := by
  have h := c10_neutral_direction c10rowFlat 7 9 3 (by decide) (by decide) rfl rfl rfl
  exact ⟨h.1, h.2 1000 [c10rowLong, c10rowFlat] 0 20 rfl (by
    have : pnlNoSpread c10rowLong = some 20 := by
      norm_num [pnlNoSpread, dirSign, c10rowLong]
    simp [pnlList, this])⟩

/-- Auxiliary: the buy-and-hold block saves either nothing or exactly its
one chart. -/
theorem benchCharts_cases (f : Frame) :
    benchCharts f = [] ∨ benchCharts f = [Chart.equityVsBuyHold] := by
  unfold benchCharts
  split
  · cases hb : basePrice (sortedRows f) with
    | none => exact Or.inl rfl
    | some b =>
        by_cases hz : b = 0
        · simp [hz]
        · simp [hz]
  · exact Or.inl rfl

/-- Auxiliary: membership in a guarded singleton block. -/
theorem mem_ite_singleton (c x : Chart) (b : Bool) :
    (c ∈ if b then [x] else []) ↔ b = true ∧ c = x := by
  cases b <;> simp

/-- Auxiliary: which chart kinds an invocation saves, by guard. -/
theorem mem_chartsOf (c : Chart) (f : Frame) :
    c ∈ chartsOf f ↔
      ((c = Chart.equityCurve ∧ equityGate f = true) ∨
        (c = Chart.equityVsBuyHold ∧ benchCharts f = [Chart.equityVsBuyHold]) ∨
        (c = Chart.pnlPerTrade ∧ f.hasNetPnl = true) ∨
        (c = Chart.pnlOverTime ∧ (f.hasExitTime && f.hasNetPnl) = true) ∨
        (c = Chart.pnlDistribution ∧ f.hasNetPnl = true)) := by
  have hbench : c ∈ benchCharts f ↔
      (c = Chart.equityVsBuyHold ∧ benchCharts f = [Chart.equityVsBuyHold]) := by
    rcases benchCharts_cases f with h | h <;> simp [h]
  simp only [chartsOf, List.mem_append, mem_ite_singleton, hbench]
  tauto

/-- C9: gates are independent; with `net_pnl` absent from every record the
three PnL charts are skipped while the equity curve still renders exactly
when its own two columns are present. -/
theorem c9_independent_gating (trades : List TradeRecord)
    (hnp : ∀ r ∈ trades, r.net_pnl = none) :
    Chart.pnlPerTrade ∉ chartsOf (mkFrame trades) ∧
      Chart.pnlOverTime ∉ chartsOf (mkFrame trades) ∧
      Chart.pnlDistribution ∉ chartsOf (mkFrame trades) ∧
      (Chart.equityCurve ∈ chartsOf (mkFrame trades) ↔
        ((mkFrame trades).hasExitTime && (mkFrame trades).hasCapitalAfterExit) = true) := by
  have hN : (mkFrame trades).hasNetPnl = false := by
    simp only [mkFrame]
    rw [List.any_eq_false]
    intro r hr
    simp [hnp r hr]
  refine ⟨?_, ?_, ?_, ?_⟩ <;> simp [mem_chartsOf, hN, equityGate]

def c9row : TradeRecord :=
  ⟨none, some 0, none, none, none, none, none, none, some 100, none⟩

/-- Witness for C9 on a one-record set carrying only an exit time and a
capital value. -/
theorem c9_witness :
    Chart.pnlPerTrade ∉ chartsOf (mkFrame [c9row]) ∧
      Chart.equityCurve ∈ chartsOf (mkFrame [c9row]) :=
  ⟨(c9_independent_gating [c9row] (by decide)).1,
    (c9_independent_gating [c9row] (by decide)).2.2.2.mpr (by decide)⟩

/-- Schema equality: the same ten columns exist in both frames. -/
def sameSchema (f g : Frame) : Prop :=
  f.hasEntryTime = g.hasEntryTime ∧ f.hasExitTime = g.hasExitTime ∧
    f.hasMidPriceEntry = g.hasMidPriceEntry ∧ f.hasMidPriceExit = g.hasMidPriceExit ∧
    f.hasPositionSize = g.hasPositionSize ∧ f.hasDirection = g.hasDirection ∧
    f.hasSlippageEntry = g.hasSlippageEntry ∧ f.hasSlippageExit = g.hasSlippageExit ∧
    f.hasCapitalAfterExit = g.hasCapitalAfterExit ∧ f.hasNetPnl = g.hasNetPnl

/-- Auxiliary: away from the buy-and-hold chart, the saved chart list is a
function of the column flags alone. -/
theorem filter_chartsOf (f : Frame) :
    (chartsOf f).filter (fun c => decide (c ≠ Chart.equityVsBuyHold)) =
      (if equityGate f then [Chart.equityCurve] else []) ++
        (if f.hasNetPnl then [Chart.pnlPerTrade] else []) ++
        (if f.hasExitTime && f.hasNetPnl then [Chart.pnlOverTime] else []) ++
        (if f.hasNetPnl then [Chart.pnlDistribution] else []) := by
  rcases benchCharts_cases f with hb | hb <;>
    simp only [chartsOf, List.filter_append, hb] <;>
      cases hx : equityGate f <;> cases hn : f.hasNetPnl <;> cases he : f.hasExitTime <;>
        simp [List.filter]

/-- C6: a missing or zero reference price means the benchmark series is
never computed (so the guarded division is never reached), the
strategy-vs-buy-and-hold chart alone is skipped, and every other chart is
exactly what any frame with the same columns would save. -/
theorem c6_degenerate_benchmark (init : ℚ) (f : Frame)
    (hdeg : basePrice (sortedRows f) = none ∨ basePrice (sortedRows f) = some 0) :
    benchmarkSeries init f = none ∧
      Chart.equityVsBuyHold ∉ chartsOf f ∧
      ∀ g : Frame, sameSchema f g →
        (chartsOf f).filter (fun c => decide (c ≠ Chart.equityVsBuyHold)) =
          (chartsOf g).filter (fun c => decide (c ≠ Chart.equityVsBuyHold)) := by
  have hb : benchCharts f = [] := by
    rcases hdeg with h | h <;> simp [benchCharts, h]
  refine ⟨?_, ?_, ?_⟩
  · rcases hdeg with h | h <;> simp [benchmarkSeries, h]
  · simp [mem_chartsOf, hb]
  · intro g hs
    obtain ⟨e1, e2, e3, e4, e5, e6, e7, e8, e9, e10⟩ := hs
    rw [filter_chartsOf f, filter_chartsOf g, equityGate, equityGate, e2, e9, e10]

def c6row : TradeRecord :=
  ⟨none, some 0, none, some 0, none, none, none, none, some 5, none⟩

/-- Witness for C6 on a one-record frame whose first exit price is exactly
zero. -/
theorem c6_witness :
    benchmarkSeries 7 (mkFrame [c6row]) = none ∧
      Chart.equityVsBuyHold ∉ chartsOf (mkFrame [c6row]) :=
  ⟨(c6_degenerate_benchmark 7 (mkFrame [c6row]) (Or.inr rfl)).1,
    (c6_degenerate_benchmark 7 (mkFrame [c6row]) (Or.inr rfl)).2.1⟩

/-- C5: whenever the buy-and-hold benchmark is computed, its reference
price is the `mid_price_exit` of the first sorted record, each defined
cell equals `initial_capital * (mid_price_exit / reference)`, and the
computation reads only the `mid_price_exit` column, so it is independent
of the trade, PnL and capital fields. -/
theorem c5_buy_hold_benchmark (init : ℚ) (f : Frame) (ser : List (Option ℚ)) (b : ℚ)
    (hser : benchmarkSeries init f = some ser)
    (hb : basePrice (sortedRows f) = some b) :
    (∃ r₀ rest, sortedRows f = r₀ :: rest ∧ r₀.mid_price_exit = some b) ∧
      (∀ (i : Nat) (p : ℚ),
          ((sortedRows f)[i]?.bind fun r => r.mid_price_exit) = some p →
          ser[i]? = some (some (init * (p / b)))) ∧
      (∀ (c : ℚ) (rows₁ rows₂ : List TradeRecord),
          rows₁.map (fun r => r.mid_price_exit) = rows₂.map (fun r => r.mid_price_exit) →
          buyHoldList init c rows₁ = buyHoldList init c rows₂ ∧
            basePrice rows₁ = basePrice rows₂) := by
  have hg : benchGate f = true := by
    cases hgf : benchGate f
    · simp [benchmarkSeries, hgf] at hser
    · rfl
  simp only [benchmarkSeries, hg, if_true, hb] at hser
  by_cases hz : b = 0
  · simp [hz] at hser
  · simp only [hz, if_false, Option.some_inj] at hser
    refine ⟨?_, ?_, ?_⟩
    · cases hrows : sortedRows f with
      | nil => rw [hrows] at hb; simp [basePrice] at hb
      | cons r₀ rest =>
          rw [hrows] at hb
          simp only [basePrice, List.head?_cons, Option.some_bind] at hb
          exact ⟨r₀, rest, rfl, hb⟩
    · intro i p hp
      cases hr : (sortedRows f)[i]? with
      | none => rw [hr] at hp; simp at hp
      | some r =>
          rw [hr] at hp
          simp only [Option.some_bind] at hp
          rw [← hser]
          simp [buyHoldList, List.getElem?_map, hr, hp]
    · intro c rows₁ rows₂ hmap
      have key : ∀ rows : List TradeRecord, buyHoldList init c rows =
          (rows.map fun r => r.mid_price_exit).map (Option.map fun p => init * (p / c)) := by
        intro rows
        simp [buyHoldList, List.map_map, Function.comp_def]
      have h1 := congrArg List.head? hmap
      rw [List.head?_map, List.head?_map] at h1
      constructor
      · rw [key, key, hmap]
      · unfold basePrice
        cases hr1 : rows₁.head? <;> cases hr2 : rows₂.head? <;>
          rw [hr1, hr2] at h1 <;> simp_all

def c5row : TradeRecord :=
  ⟨none, some 0, none, some 50, none, none, none, none, some 1000, none⟩

/-- Witness for C5 on a one-record frame with exit price 50. -/
theorem c5_witness :
    basePrice (sortedRows (mkFrame [c5row])) = some 50 ∧
      (∃ r₀ rest, sortedRows (mkFrame [c5row]) = r₀ :: rest ∧
        r₀.mid_price_exit = some 50) :=
  ⟨rfl,
    (c5_buy_hold_benchmark 1000 (mkFrame [c5row])
      (buyHoldList 1000 50 (sortedRows (mkFrame [c5row]))) 50 rfl rfl).1⟩

/-- Presence of all six no-spread input fields on one single record, as the
per-record reading of the claim words it. -/
def hasNoSpreadFields (r : TradeRecord) : Bool :=
  r.mid_price_entry.isSome && r.mid_price_exit.isSome && r.position_size.isSome &&
    r.direction.isSome && r.slippage_entry.isSome && r.slippage_exit.isSome

def c7rowFull : TradeRecord :=
  ⟨none, none, some 100, some 101, some 1, some "LONG", some 0, some 0, none, none⟩

def c7rowHole : TradeRecord :=
  ⟨none, none, some 100, some 101, some 1, some "LONG", none, some 0, none, none⟩

/-- Counterexample to C7 as stated: with one record carrying all six
fields and a second record lacking `slippage_entry`, the column still
exists in the frame, so the no-spread series is computed even though a
record misses a required field; per-record absence does not disable the
series. -/
theorem c7_counterexample :
    ¬ (∀ (init : ℚ) (trades : List TradeRecord),
        (noSpreadSeries init (mkFrame trades)).isSome = true →
          ∀ r ∈ trades, hasNoSpreadFields r = true) := by
  intro h
  exact absurd (h 0 [c7rowFull, c7rowHole] (by decide) c7rowHole (by simp)) (by decide)

/-- C7 amended: the no-spread series is computed iff every one of the six
required fields is present on at least one record, i.e. the six columns
exist in the assembled frame (column-level gate, not per-record). -/
theorem c7_gate_is_column_level (init : ℚ) (trades : List TradeRecord) :
    (noSpreadSeries init (mkFrame trades)).isSome = true ↔
      ((∃ r ∈ trades, r.mid_price_entry.isSome) ∧
        (∃ r ∈ trades, r.mid_price_exit.isSome) ∧
        (∃ r ∈ trades, r.position_size.isSome) ∧
        (∃ r ∈ trades, r.direction.isSome) ∧
        (∃ r ∈ trades, r.slippage_entry.isSome) ∧
        (∃ r ∈ trades, r.slippage_exit.isSome)) := by
  have hgate : noSpreadGate (mkFrame trades) = true ↔
      ((∃ r ∈ trades, r.mid_price_entry.isSome) ∧
        (∃ r ∈ trades, r.mid_price_exit.isSome) ∧
        (∃ r ∈ trades, r.position_size.isSome) ∧
        (∃ r ∈ trades, r.direction.isSome) ∧
        (∃ r ∈ trades, r.slippage_entry.isSome) ∧
        (∃ r ∈ trades, r.slippage_exit.isSome)) := by
    simp only [noSpreadGate, mkFrame, Bool.and_eq_true, List.any_eq_true]
    tauto
  rw [← hgate]
  cases hg : noSpreadGate (mkFrame trades) <;> simp [noSpreadSeries, hg]

/-- Counterexample to C8 as stated: a bar whose `net_pnl` is exactly zero
is colored red by the source, not green. -/
theorem c8_counterexample :
    barColor (some 0) = "red" ∧ barColor (some 0) ≠ "green" :=
  ⟨by decide, by decide⟩

/-- C8 amended: bars with strictly positive `net_pnl` are green; bars with
zero or negative (or missing) `net_pnl` are red. -/
theorem c8_bar_colors (v : ℚ) :
    (0 < v → barColor (some v) = "green") ∧
      (v ≤ 0 → barColor (some v) = "red") ∧
      barColor none = "red" := by
  refine ⟨fun h => ?_, fun h => ?_, rfl⟩
  · simp [barColor, h]
  · simp [barColor, not_lt.mpr h]

/-- Witness for the amended C8 at the inputs 1 and 0. -/
theorem c8_witness :
    barColor (some 1) = "green" ∧ barColor (some 0) = "red" :=
  ⟨(c8_bar_colors 1).1 (by norm_num), (c8_bar_colors 0).2.1 le_rfl⟩

/-- Witness for the amended C7: on the two-record input the series is
computed, via the column-level characterization. -/
theorem c7_witness :
    (noSpreadSeries 0 (mkFrame [c7rowFull, c7rowHole])).isSome = true :=
  (c7_gate_is_column_level 0 [c7rowFull, c7rowHole]).mpr
    ⟨⟨c7rowFull, by simp, rfl⟩, ⟨c7rowFull, by simp, rfl⟩, ⟨c7rowFull, by simp, rfl⟩,
      ⟨c7rowFull, by simp, rfl⟩, ⟨c7rowFull, by simp, rfl⟩, ⟨c7rowFull, by simp, rfl⟩⟩

end Maturagraph
